import Mathlib

set_option autoImplicit false

namespace StructuredPreprocessing

/-! Shallow embedding of `src/chain_of_thoughts/structured_preprocessing.py`.

Python/YAML values are modelled by the mutual inductive `JSON` / `JObj`:
`JObj` is an insertion-ordered dictionary (as Python `dict` is), `JSON` is
any value.  Dictionary operations mirror Python semantics: `getKey` is
`d.get(k)`, `hasKey` is `k in d`, `setKey` is `d[k] = v` (updates the value
in place when the key is present, otherwise appends at the end). -/

mutual
inductive JSON where
  | str : String → JSON
  | num : Int → JSON
  | boolean : Bool → JSON
  | null : JSON
  | arr : List JSON → JSON
  | obj : JObj → JSON

inductive JObj where
  | nil : JObj
  | cons : String → JSON → JObj → JObj
end

namespace JObj

/-- Python `d.get(key)`: first (only, for genuine dicts) binding of `key`. -/
def getKey : JObj → String → Option JSON
  | .nil, _ => none
  | .cons k v rest, key => if k = key then some v else getKey rest key

/-- Python `key in d`. -/
def hasKey (d : JObj) (key : String) : Bool :=
  (d.getKey key).isSome

/-- Python `d[key] = v`: replace in place if present, else append. -/
def setKey : JObj → String → JSON → JObj
  | .nil, key, v => .cons key v .nil
  | .cons k v0 rest, key, v =>
      if k = key then .cons k v rest else .cons k v0 (setKey rest key v)

/-- The keys of the dictionary, in order. -/
def keys : JObj → List String
  | .nil => []
  | .cons k _ rest => k :: keys rest

/-- Build a dictionary from an association list (concrete-input helper). -/
def ofList : List (String × JSON) → JObj
  | [] => .nil
  | (k, v) :: rest => .cons k v (ofList rest)

/-- Python truthiness of a dictionary: `{}` is falsy. -/
def isEmpty : JObj → Bool
  | .nil => true
  | .cons _ _ _ => false

end JObj

/-- Loop body of `recursive_merge` over the override dictionary
(`structured_preprocessing.py` lines 20-26): for each key of the override,
if the key exists in the working result and both values are dicts, merge
recursively, else the override value replaces the old one. -/
def mergeObj : JObj → JObj → JObj
  | result, .nil => result
  | result, .cons k v rest =>
      mergeObj
        (result.setKey k
          (match result.getKey k, v with
           | some (JSON.obj sub), JSON.obj ovsub => JSON.obj (mergeObj sub ovsub)
           | _, _ => v))
        rest

/-- The value stored for one override key: recursive merge when the existing
value and the override value are both dicts, else the override value. -/
def mergeValAt : Option JSON → JSON → JSON
  | some (JSON.obj sub), JSON.obj ovsub => JSON.obj (mergeObj sub ovsub)
  | _, v => v

/-- Embedding of `recursive_merge(default, override)` (lines 12-26):
a `None` override is treated as `{}`;
the result starts from a deep copy of `default` (the identity on pure
values) and folds the override in. -/
def recursive_merge (dflt : JObj) (override : Option JObj) : JObj :=
  match override with
  | none => dflt
  | some ov => mergeObj dflt ov

/-- Python `x == "<value>"` for a looked-up payload value: true exactly when
the value is present and is the placeholder sentinel string. -/
def isPlaceholder : Option JSON → Bool
  | some (JSON.str s) => s = "<value>"
  | _ => false

/-- One `parameters` entry of an operation: its `in` location, `name`, and
`schema` sub-dictionary. -/
structure Param where
  loc : Option String
  name : String
  schema : Option JObj

/-- The request-body JSON schema: `required` list, `properties` dictionary,
and top-level `default` object (each possibly absent, as `.get` sees it). -/
structure Schema where
  required : Option (List String)
  properties : Option JObj
  dflt : Option JObj

/-- One entry of the spec's `servers` list. -/
structure Server where
  url : Option String

/-- One operation (method details) of the OpenAPI document.
`requestBodySchema` stands for `requestBody.content["application/json"].schema`,
`none` when any link of that chain is missing or the schema is falsy —
exactly the cases the source collapses to `{}` (lines 159-160). -/
structure Operation where
  tags : Option (List String)
  summary : Option String
  description : Option String
  operationId : Option String
  parameters : Option (List Param)
  requestBodySchema : Option Schema
  default_headers : Option JObj
  responses : Option JObj

/-- The resolved OpenAPI specification: `servers` and
`paths` (path string → lowercase method → Operation). -/
structure Spec where
  servers : Option (List Server)
  paths : Option (List (String × List (String × Operation)))

/-- One scenario step, every field as `.get` sees it (absent = `none`). -/
structure Step where
  service : Option String
  endpoint : Option String
  method : Option String
  base_url_override : Option String
  path_params_override : Option JObj
  payload_override : Option JObj
  headers_override : Option JObj
  query_params_override : Option JObj

/-- The authored scenario. -/
structure Scenario where
  test_name : Option String
  description : Option String
  base_url_override : Option String
  global_variables_override : Option JObj
  global_headers_override : Option JObj
  global_query_parameters_override : Option JObj
  global_path_params_override : Option JObj
  steps : List Step

/-- The fatal lookup failure of `get_endpoint_details` (source lines
127-135: a `ValueError` is raised, logged and converted to an abort via
`sys.exit(1)`; the spec surfaces this abort to the caller as
`SpecLookupError`).  The embedding models the abort channel as the error
component of `Except`. -/
inductive SpecLookupError where
  | endpointNotFound : Option String → SpecLookupError
  | methodNotFound : Option String → String → SpecLookupError

/-- The `static_details` block of a merged step (lines 190-200). -/
structure StaticDetails where
  base_url : String
  tags : List String
  summary : String
  description : String
  operationId : String
  parameters : List Param
  requestBodySchema : Option Schema
  default_headers : JObj
  responses : JObj

/-- The `dynamic_overrides` traceability block of a merged step
(lines 201-207). -/
structure DynamicOverrides where
  base_url : String
  path_params : JObj
  payload : JObj
  headers : JObj
  query_params : JObj

/-- One fully resolved step (the dictionary built at lines 186-212). -/
structure MergedStep where
  service : Option String
  endpoint : Option String
  method : String
  static_details : StaticDetails
  dynamic_overrides : DynamicOverrides
  merged_path_params : JObj
  merged_payload : JObj
  merged_headers : JObj
  merged_query_params : JObj

/-- The final output of `process_scenario` (lines 225-234). -/
structure ExecutionPlan where
  base_url : String
  test_name : Option String
  description : Option String
  global_path_params_override : JObj
  global_variables_override : JObj
  global_headers_override : JObj
  global_query_parameters_override : JObj
  steps : List MergedStep

/-- ASCII lower-casing of one character (`str.lower()` on the HTTP method
names this program handles). -/
def pyLowerChar (c : Char) : Char :=
  if 65 ≤ c.toNat ∧ c.toNat ≤ 90 then Char.ofNat (c.toNat + 32) else c

/-- ASCII upper-casing of one character (`str.upper()`). -/
def pyUpperChar (c : Char) : Char :=
  if 97 ≤ c.toNat ∧ c.toNat ≤ 122 then Char.ofNat (c.toNat - 32) else c

/-- Embedding of `method.lower()`. -/
def pyLower (s : String) : String := ⟨s.data.map pyLowerChar⟩

/-- Embedding of `method.upper()`. -/
def pyUpper (s : String) : String := ⟨s.data.map pyUpperChar⟩

/-- First-match association lookup (Python `d.get(k)` for the typed parts
of the specification). -/
def lookupStr {α : Type} : List (String × α) → String → Option α
  | [], _ => none
  | (k, v) :: rest, key => if k = key then some v else lookupStr rest key

/-- Loop of `ensure_required_fields` over the required-field names
(lines 34-37): a field missing from the payload is inserted with the
placeholder sentinel `"<value>"`. -/
def ensure_required_loop (mp : JObj) : List String → JObj
  | [] => mp
  | key :: rest =>
      ensure_required_loop
        (if mp.hasKey key then mp else mp.setKey key (JSON.str "<value>")) rest

/-- Embedding of `ensure_required_fields` (lines 28-38). -/
def ensure_required_fields (merged_payload : JObj) (schema : Schema) : JObj :=
  ensure_required_loop merged_payload (schema.required.getD [])

/-- Loop of `apply_global_overrides_to_payload` over the global variables
(lines 48-52): a global variable is written only for keys declared in
`properties`, and only when the payload lacks the key or holds the
placeholder sentinel. -/
def apply_global_loop (properties : JObj) (mp : JObj) : JObj → JObj
  | .nil => mp
  | .cons key value rest =>
      apply_global_loop properties
        (if properties.hasKey key then
           if !(mp.hasKey key) || isPlaceholder (mp.getKey key) then mp.setKey key value
           else mp
         else mp) rest

/-- Embedding of `apply_global_overrides_to_payload` (lines 40-53). -/
def apply_global_overrides_to_payload
    (merged_payload : JObj) (global_overrides : JObj) (schema : Schema) : JObj :=
  apply_global_loop (schema.properties.getD .nil) merged_payload global_overrides

/-- Loop of `extract_default_query_params` over the parameter list
(lines 75-79). -/
def extract_query_loop (defaults : JObj) : List Param → JObj
  | [] => defaults
  | param :: rest =>
      extract_query_loop
        (if param.loc = some "query" then
           match (param.schema.getD .nil).getKey "default" with
           | some v => defaults.setKey param.name v
           | none => defaults
         else defaults) rest

/-- Embedding of `extract_default_query_params` (lines 69-80): collect
`{name: default}` for each `query`-located parameter whose schema carries
a `default`. -/
def extract_default_query_params (parameters : List Param) : JObj :=
  extract_query_loop .nil parameters

/-- Embedding of `extract_base_url` (lines 105-118): `servers[0].url`, empty string when
the list or the field is missing. -/
def extract_base_url (spec : Spec) : String :=
  match spec.servers.getD [] with
  | [] => ""
  | srv :: _ => srv.url.getD ""

/-- Embedding of `get_endpoint_details` (lines 120-135): look up the operation for
`(endpoint, method.lower())`.  A missing or falsy path entry and a missing
method both end in the fatal lookup abort, modelled as `Except.error`. -/
def get_endpoint_details (spec : Spec) (endpoint : Option String) (method : String) :
    Except SpecLookupError Operation :=
  let paths := spec.paths.getD []
  match endpoint.bind (lookupStr paths) with
  | none => .error (.endpointNotFound endpoint)
  | some ops =>
    if ops.isEmpty then .error (.endpointNotFound endpoint)
    else
      match lookupStr ops (pyLower method) with
      | none => .error (.methodNotFound endpoint method)
      | some op => .ok op

/-- The hard-coded fallback for a missing operation-level
`default_headers` field (lines 153-156). -/
def fallback_headers : JObj :=
  JObj.ofList [("Content-Type", .str "application/json"),
               ("Accept", .str "application/json")]

/-- Body of `process_test_step` after the endpoint lookup succeeded
(lines 149-213); `static_details` is the operation the lookup returned.
Everything here is total: every absent field has a documented fallback. -/
def build_merged_step (step : Step) (spec : Spec) (global_base_url : String)
    (global_vars global_headers global_query_params global_path_params_override : JObj)
    (static_details : Operation) : MergedStep :=
  let endpoint := step.endpoint
  let method := step.method.getD "POST"
  let base_url := if global_base_url = "" then extract_base_url spec else global_base_url
  let default_headers := static_details.default_headers.getD fallback_headers
  let schema := static_details.requestBodySchema.getD ⟨none, none, none⟩
  let default_payload := schema.dflt.getD .nil
  let parameters := static_details.parameters.getD []
  let default_query_params := extract_default_query_params parameters
  let dynamic_path_params := step.path_params_override.getD .nil
  let dynamic_payload := step.payload_override.getD .nil
  let dynamic_headers := step.headers_override.getD .nil
  let dynamic_query_params := step.query_params_override.getD .nil
  let merged_path_params := recursive_merge global_path_params_override (some dynamic_path_params)
  let merged_payload := recursive_merge default_payload (some dynamic_payload)
  let merged_payload := ensure_required_fields merged_payload schema
  let merged_payload := apply_global_overrides_to_payload merged_payload global_vars schema
  let merged_headers := recursive_merge default_headers (some dynamic_headers)
  let merged_headers := recursive_merge merged_headers (some global_headers)
  let merged_query_params := recursive_merge default_query_params (some dynamic_query_params)
  let merged_query_params := recursive_merge merged_query_params (some global_query_params)
  { service := step.service
    endpoint := endpoint
    method := pyUpper method
    static_details :=
      { base_url := base_url
        tags := static_details.tags.getD []
        summary := static_details.summary.getD ""
        description := static_details.description.getD ""
        operationId := static_details.operationId.getD ""
        parameters := parameters
        requestBodySchema := static_details.requestBodySchema
        default_headers := default_headers
        responses := static_details.responses.getD .nil }
    dynamic_overrides :=
      { base_url := step.base_url_override.getD ""
        path_params := dynamic_path_params
        payload := dynamic_payload
        headers := dynamic_headers
        query_params := dynamic_query_params }
    merged_path_params := merged_path_params
    merged_payload := merged_payload
    merged_headers := merged_headers
    merged_query_params := merged_query_params }

/-- Embedding of `process_test_step` (lines 137-213): look the operation up
(the only fallible part, aborting on failure), then build the merged step. -/
def process_test_step (step : Step) (spec : Spec) (global_base_url : String)
    (global_vars global_headers global_query_params global_path_params_override : JObj) :
    Except SpecLookupError MergedStep :=
  match get_endpoint_details spec step.endpoint (step.method.getD "POST") with
  | .error e => .error e
  | .ok static_details =>
      .ok (build_merged_step step spec global_base_url global_vars global_headers
            global_query_params global_path_params_override static_details)

/-- The post-processing quirk of `process_scenario` (lines 241-242): when
the recorded `dynamic_overrides.path_params` is falsy (the empty dict), it
is overwritten with the scenario's `global_path_params_override`. -/
def adjust_step_metadata (global_path_params_override : JObj) (ms : MergedStep) : MergedStep :=
  match ms.dynamic_overrides.path_params with
  | .nil => { ms with dynamic_overrides :=
                { ms.dynamic_overrides with path_params := global_path_params_override } }
  | _ => ms

/-- The step loop of `process_scenario` (lines 236-243): resolve each step
in order, apply the metadata quirk, append; a lookup abort stops
everything. -/
def process_steps (steps : List Step) (spec : Spec) (global_base_url : String)
    (global_vars global_headers global_query_params global_path_params_override : JObj) :
    Except SpecLookupError (List MergedStep) :=
  match steps with
  | [] => .ok []
  | s :: rest =>
    match process_test_step s spec global_base_url global_vars global_headers
            global_query_params global_path_params_override with
    | .error e => .error e
    | .ok ms =>
      match process_steps rest spec global_base_url global_vars global_headers
              global_query_params global_path_params_override with
      | .error e => .error e
      | .ok tail => .ok (adjust_step_metadata global_path_params_override ms :: tail)

/-- Line 219: `scenario.get("base_url_override", "") or extract_base_url(spec)`
(a missing or empty override falls back to the base URL of the spec). -/
def scenario_base_url (scenario : Scenario) (spec : Spec) : String :=
  match scenario.base_url_override with
  | some s => if s = "" then extract_base_url spec else s
  | none => extract_base_url spec

/-- Line 220: the global variables, `{}` when absent or falsy. -/
def scenario_global_vars (scenario : Scenario) : JObj :=
  scenario.global_variables_override.getD .nil

/-- Line 221: the global headers, `{}` when absent or falsy. -/
def scenario_global_headers (scenario : Scenario) : JObj :=
  scenario.global_headers_override.getD .nil

/-- Line 222: the global query parameters, `{}` when absent or falsy. -/
def scenario_global_query_params (scenario : Scenario) : JObj :=
  scenario.global_query_parameters_override.getD .nil

/-- Line 223: the global path-parameter overrides, `{}` when absent or falsy. -/
def scenario_global_path_params (scenario : Scenario) : JObj :=
  scenario.global_path_params_override.getD .nil

/-- Embedding of `process_scenario` (lines 215-245). -/
def process_scenario (scenario : Scenario) (spec : Spec) :
    Except SpecLookupError ExecutionPlan :=
  match process_steps scenario.steps spec (scenario_base_url scenario spec)
          (scenario_global_vars scenario) (scenario_global_headers scenario)
          (scenario_global_query_params scenario) (scenario_global_path_params scenario) with
  | .error e => .error e
  | .ok steps =>
      .ok { base_url := scenario_base_url scenario spec
            test_name := scenario.test_name
            description := scenario.description
            global_path_params_override := scenario_global_path_params scenario
            global_variables_override := scenario_global_vars scenario
            global_headers_override := scenario_global_headers scenario
            global_query_parameters_override := scenario_global_query_params scenario
            steps := steps }

/-- Shorthand for the request-body schema the step resolver works with:
the operation field when present, the empty schema otherwise. -/
def operation_schema (op : Operation) : Schema :=
  op.requestBodySchema.getD ⟨none, none, none⟩

/-! ### Concrete fixtures

Small concrete inputs, modelled on the concrete scenario of the
documentation (`POST /widgets/{id}` with a required `name` property), used
to instantiate the verified properties on closed data. -/

/-- Operation fixture: request body requires `name`, declares properties
`name` and `color`, has no schema default and no operation-level default
headers. -/
def widgetsOp : Operation :=
  { tags := none, summary := none, description := none, operationId := none,
    parameters := none,
    requestBodySchema := some
      { required := some ["name"],
        properties := some (JObj.ofList [("name", JSON.obj .nil), ("color", JSON.obj .nil)]),
        dflt := none },
    default_headers := none, responses := none }

/-- Specification fixture: a single path `/widgets/{id}` with a `post`
operation and no `servers` entry. -/
def widgetsSpec : Spec :=
  { servers := none, paths := some [("/widgets/{id}", [("post", widgetsOp)])] }

/-- Step fixture from the documented concrete scenario: payload sets
`name`, headers override `X-Trace` and `Accept`. -/
def boltStep : Step :=
  { service := none, endpoint := some "/widgets/{id}", method := some "POST",
    base_url_override := none, path_params_override := none,
    payload_override := some (JObj.ofList [("name", .str "Bolt")]),
    headers_override := some (JObj.ofList [("X-Trace", .str "0"), ("Accept", .str "text/plain")]),
    query_params_override := none }

/-- Step fixture with no overrides at all. -/
def bareStep : Step :=
  { service := none, endpoint := some "/widgets/{id}", method := some "POST",
    base_url_override := none, path_params_override := none,
    payload_override := none, headers_override := none, query_params_override := none }

/-- Step fixture whose endpoint does not exist in `widgetsSpec`. -/
def unknownStep : Step :=
  { service := none, endpoint := some "/gadgets", method := some "POST",
    base_url_override := none, path_params_override := none,
    payload_override := none, headers_override := none, query_params_override := none }

/-- Global headers fixture of the documented concrete scenario. -/
def sec8Globals : JObj := JObj.ofList [("X-Trace", .str "1")]

/-- Step fixture overriding one path parameter. -/
def pathStep : Step :=
  { service := none, endpoint := some "/widgets/{id}", method := some "POST",
    base_url_override := none,
    path_params_override := some (JObj.ofList [("propertyCode", .str "S")]),
    payload_override := none, headers_override := none, query_params_override := none }

/-- Step fixture that sets the declared property `name` to the literal
placeholder string. -/
def placeholderStep : Step :=
  { service := none, endpoint := some "/widgets/{id}", method := some "POST",
    base_url_override := none, path_params_override := none,
    payload_override := some (JObj.ofList [("name", .str "<value>")]),
    headers_override := none, query_params_override := none }

/-- Step fixture whose header override holds a nested dictionary value. -/
def nestedStep : Step :=
  { service := none, endpoint := some "/widgets/{id}", method := some "POST",
    base_url_override := none, path_params_override := none,
    payload_override := none,
    headers_override := some (JObj.ofList [("X-Meta", JSON.obj (JObj.ofList [("a", .str "1")]))]),
    query_params_override := none }

/-- Global headers holding a nested dictionary value under the same key as
`nestedStep`. -/
def nestedGlobals : JObj :=
  JObj.ofList [("X-Meta", JSON.obj (JObj.ofList [("b", .str "2")]))]

/-- Operation fixture with everything missing: no default headers, no
request-body schema, one query parameter without a schema default. -/
def minimalOp : Operation :=
  { tags := none, summary := none, description := none, operationId := none,
    parameters := some [{ loc := some "query", name := "limit", schema := some .nil }],
    requestBodySchema := none, default_headers := none, responses := none }

/-- Specification fixture whose single server entry has no `url`. -/
def minimalSpec : Spec :=
  { servers := some [{ url := none }],
    paths := some [("/things", [("get", minimalOp)])] }

/-- Step fixture for `minimalSpec`. -/
def minimalStep : Step :=
  { service := none, endpoint := some "/things", method := some "GET",
    base_url_override := none, path_params_override := none,
    payload_override := none, headers_override := none, query_params_override := none }

/-- Scenario fixture containing a step with an unknown endpoint. -/
def unknownScenario : Scenario :=
  { test_name := none, description := none, base_url_override := none,
    global_variables_override := none, global_headers_override := none,
    global_query_parameters_override := none, global_path_params_override := none,
    steps := [unknownStep] }

/-- Scenario fixture exercising the path-params metadata quirk: global
path parameters are set, the single step has none of its own. -/
def quirkScenario : Scenario :=
  { test_name := none, description := none, base_url_override := none,
    global_variables_override := none, global_headers_override := none,
    global_query_parameters_override := none,
    global_path_params_override := some (JObj.ofList [("clientCode", .str "G")]),
    steps := [boltStep, pathStep] }

/-! ### Dictionary lemmas -/

theorem getKey_setKey_self : ∀ (d : JObj) (k : String) (v : JSON),
    (d.setKey k v).getKey k = some v
  | .nil, k, v => by simp [JObj.setKey, JObj.getKey]
  | .cons k0 v0 rest, k, v => by
      by_cases h : k0 = k
      · subst h; simp [JObj.setKey, JObj.getKey]
      · simp [JObj.setKey, JObj.getKey, h, getKey_setKey_self rest k v]

theorem getKey_setKey_ne : ∀ (d : JObj) (k0 k : String) (v : JSON), k0 ≠ k →
    (d.setKey k0 v).getKey k = d.getKey k
  | .nil, k0, k, v, h => by simp [JObj.setKey, JObj.getKey, h]
  | .cons k1 v1 rest, k0, k, v, h => by
      by_cases h1 : k1 = k0
      · subst h1; simp [JObj.setKey, JObj.getKey, h]
      · by_cases h2 : k1 = k <;>
          simp [JObj.setKey, JObj.getKey, h1, h2, Ne.symm h,
            getKey_setKey_ne rest k0 k v h]

theorem hasKey_setKey (d : JObj) (k0 k : String) (v : JSON) :
    (d.setKey k0 v).hasKey k = (k0 == k || d.hasKey k) := by
  by_cases h : k0 = k
  · subst h; simp [JObj.hasKey, getKey_setKey_self]
  · simp [JObj.hasKey, getKey_setKey_ne d k0 k v h, h]

theorem getKey_eq_none_of_not_mem_keys : ∀ (d : JObj) (k : String), k ∉ d.keys →
    d.getKey k = none
  | .nil, _, _ => rfl
  | .cons k0 v0 rest, k, h => by
      simp only [JObj.keys, List.mem_cons] at h
      push_neg at h
      have hne : k0 ≠ k := fun e => h.1 e.symm
      simp [JObj.getKey, hne, getKey_eq_none_of_not_mem_keys rest k h.2]

theorem mem_keys_of_getKey : ∀ (d : JObj) (k : String) (v : JSON),
    d.getKey k = some v → k ∈ d.keys
  | .cons k0 v0 rest, k, v, h => by
      by_cases h0 : k0 = k
      · simp [JObj.keys, h0]
      · simp only [JObj.getKey, h0, if_false] at h
        simp [JObj.keys, mem_keys_of_getKey rest k v h]

/-! ### Recursive-merge lemmas -/

@[simp] theorem mergeObj_nil (d : JObj) : mergeObj d .nil = d := rfl

theorem mergeObj_cons (d : JObj) (k : String) (v : JSON) (rest : JObj) :
    mergeObj d (.cons k v rest)
      = mergeObj (d.setKey k (mergeValAt (d.getKey k) v)) rest := by
  cases h : d.getKey k with
  | none => cases v <;> simp [mergeObj, mergeValAt, h]
  | some w => cases w <;> cases v <;> simp [mergeObj, mergeValAt, h]

theorem getKey_mergeObj_not_mem : ∀ (base ov : JObj) (k : String), k ∉ ov.keys →
    (mergeObj base ov).getKey k = base.getKey k
  | base, .nil, k, _ => rfl
  | base, .cons k0 v0 rest, k, h => by
      simp only [JObj.keys, List.mem_cons] at h
      push_neg at h
      have hne : k0 ≠ k := fun e => h.1 e.symm
      rw [mergeObj_cons,
        getKey_mergeObj_not_mem (base.setKey k0 (mergeValAt (base.getKey k0) v0)) rest k h.2,
        getKey_setKey_ne base k0 k _ hne]

/-- Per-key semantics of the merge: for a dictionary-shaped override with
distinct keys, a key absent from the override keeps the base value and a key
of the override gets the override value, merged recursively when both sides
are dictionaries. -/
theorem getKey_mergeObj : ∀ (base ov : JObj) (k : String), ov.keys.Nodup →
    (mergeObj base ov).getKey k
      = (match ov.getKey k with
         | none => base.getKey k
         | some v => some (mergeValAt (base.getKey k) v))
  | base, .nil, k, _ => rfl
  | base, .cons k0 v0 rest, k, h => by
      simp only [JObj.keys, List.nodup_cons] at h
      by_cases h0 : k0 = k
      · subst h0
        rw [mergeObj_cons, getKey_mergeObj_not_mem _ rest k0 h.1,
          getKey_setKey_self]
        simp [JObj.getKey]
      · rw [mergeObj_cons,
          getKey_mergeObj (base.setKey k0 (mergeValAt (base.getKey k0) v0)) rest k h.2]
        cases hrest : rest.getKey k <;>
          simp [JObj.getKey, h0, hrest, getKey_setKey_ne base k0 k _ h0]

theorem recursive_merge_some (d ov : JObj) :
    recursive_merge d (some ov) = mergeObj d ov := rfl

theorem getKey_mergeObj_of_some (base ov : JObj) (k : String) (v : JSON)
    (hnd : ov.keys.Nodup) (hv : ov.getKey k = some v) :
    (mergeObj base ov).getKey k = some (mergeValAt (base.getKey k) v) := by
  rw [getKey_mergeObj base ov k hnd, hv]

theorem mergeValAt_str (old : Option JSON) (s : String) :
    mergeValAt old (JSON.str s) = JSON.str s := by
  cases old with
  | none => rfl
  | some w => cases w <;> rfl

theorem mergeValAt_of_not_obj (old : Option JSON) (v : JSON)
    (h : ∀ sub : JObj, v ≠ JSON.obj sub) : mergeValAt old v = v := by
  cases old with
  | none => cases v <;> rfl
  | some w => cases w <;> cases v <;> first | rfl | exact absurd rfl (h _)

theorem isPlaceholder_mergeValAt (old : Option JSON) (v : JSON)
    (hv : isPlaceholder (some v) = false) :
    isPlaceholder (some (mergeValAt old v)) = false := by
  cases old with
  | none => cases v <;> simpa [mergeValAt] using hv
  | some w => cases w <;> cases v <;> simp_all [mergeValAt, isPlaceholder]

/-! ### Required-field fill lemmas -/

theorem ensure_loop_getKey_of_some : ∀ (req : List String) (mp : JObj) (k : String) (v : JSON),
    mp.getKey k = some v → (ensure_required_loop mp req).getKey k = some v
  | [], _, _, _, h => h
  | key :: rest, mp, k, v, h => by
      simp only [ensure_required_loop]
      cases hk : mp.hasKey key with
      | true => simpa [hk] using ensure_loop_getKey_of_some rest mp k v h
      | false =>
          have hne : key ≠ k := by
            intro e; subst e; simp [JObj.hasKey, h] at hk
          simp only [hk, Bool.false_eq_true, if_false]
          exact ensure_loop_getKey_of_some rest _ k v
            (by rw [getKey_setKey_ne mp key k _ hne]; exact h)

theorem ensure_loop_inserts : ∀ (req : List String) (mp : JObj) (k : String),
    k ∈ req → mp.getKey k = none →
    (ensure_required_loop mp req).getKey k = some (JSON.str "<value>")
  | key :: rest, mp, k, hmem, h => by
      simp only [ensure_required_loop]
      by_cases he : key = k
      · subst he
        have hk : mp.hasKey key = false := by simp [JObj.hasKey, h]
        simp only [hk, Bool.false_eq_true, if_false]
        exact ensure_loop_getKey_of_some rest _ key _ (getKey_setKey_self mp key _)
      · have hmem' : k ∈ rest := by
          rcases List.mem_cons.mp hmem with h1 | h1
          · exact absurd h1.symm he
          · exact h1
        cases hk : mp.hasKey key with
        | true => simpa [hk] using ensure_loop_inserts rest mp k hmem' h
        | false =>
            simp only [hk, Bool.false_eq_true, if_false]
            exact ensure_loop_inserts rest _ k hmem'
              (by rw [getKey_setKey_ne mp key k _ he]; exact h)

theorem ensure_loop_hasKey_of_mem (req : List String) (mp : JObj) (k : String)
    (hmem : k ∈ req) : (ensure_required_loop mp req).hasKey k = true := by
  cases h : mp.getKey k with
  | none => simp [JObj.hasKey, ensure_loop_inserts req mp k hmem h]
  | some v => simp [JObj.hasKey, ensure_loop_getKey_of_some req mp k v h]

/-! ### Conditional global-overlay lemmas -/

theorem apply_loop_hasKey : ∀ (gv props mp : JObj) (k : String),
    mp.hasKey k = true → (apply_global_loop props mp gv).hasKey k = true
  | .nil, _, _, _, h => h
  | .cons key value rest, props, mp, k, h => by
      simp only [apply_global_loop]
      apply apply_loop_hasKey rest props _ k
      split_ifs <;> simp [hasKey_setKey, h]

theorem apply_loop_getKey_of_present : ∀ (gv props mp : JObj) (k : String) (v : JSON),
    mp.getKey k = some v → isPlaceholder (some v) = false →
    (apply_global_loop props mp gv).getKey k = some v
  | .nil, _, _, _, _, h, _ => h
  | .cons key value rest, props, mp, k, v, h, hpl => by
      simp only [apply_global_loop]
      by_cases he : key = k
      · subst he
        have h1 : mp.hasKey key = true := by simp [JObj.hasKey, h]
        have h2 : isPlaceholder (mp.getKey key) = false := by rw [h]; exact hpl
        have hbody :
            (if props.hasKey key then
               if !(mp.hasKey key) || isPlaceholder (mp.getKey key) then mp.setKey key value
               else mp
             else mp) = mp := by
          simp [h1, h2]
        rw [hbody]
        exact apply_loop_getKey_of_present rest props mp key v h hpl
      · refine apply_loop_getKey_of_present rest props _ k v ?_ hpl
        split_ifs <;> simp [getKey_setKey_ne mp key k _ he, h]

theorem apply_loop_getKey_of_not_prop : ∀ (gv props mp : JObj) (k : String),
    props.hasKey k = false →
    (apply_global_loop props mp gv).getKey k = mp.getKey k
  | .nil, _, _, _, _ => rfl
  | .cons key value rest, props, mp, k, h => by
      simp only [apply_global_loop]
      by_cases he : key = k
      · subst he
        simp only [h, Bool.false_eq_true, if_false]
        exact apply_loop_getKey_of_not_prop rest props mp key h
      · rw [apply_loop_getKey_of_not_prop rest props _ k h]
        split_ifs <;> simp [getKey_setKey_ne mp key k _ he]

theorem apply_loop_getKey_of_not_mem : ∀ (gv props mp : JObj) (k : String),
    k ∉ gv.keys →
    (apply_global_loop props mp gv).getKey k = mp.getKey k
  | .nil, _, _, _, _ => rfl
  | .cons key value rest, props, mp, k, h => by
      simp only [JObj.keys, List.mem_cons] at h
      push_neg at h
      have hne : key ≠ k := fun e => h.1 e.symm
      simp only [apply_global_loop]
      rw [apply_loop_getKey_of_not_mem rest props _ k h.2]
      split_ifs <;> simp [getKey_setKey_ne mp key k _ hne]

theorem apply_loop_writes : ∀ (gv props mp : JObj) (k : String) (v : JSON),
    gv.keys.Nodup → gv.getKey k = some v → props.hasKey k = true →
    (mp.hasKey k = false ∨ isPlaceholder (mp.getKey k) = true) →
    (apply_global_loop props mp gv).getKey k = some v
  | .cons key value rest, props, mp, k, v, hnd, hg, hp, hmp => by
      simp only [JObj.keys, List.nodup_cons] at hnd
      simp only [apply_global_loop]
      by_cases he : key = k
      · subst he
        have hv : v = value := by
          simp [JObj.getKey] at hg; exact hg.symm
        subst hv
        have hcond : (!(mp.hasKey key) || isPlaceholder (mp.getKey key)) = true := by
          rcases hmp with h1 | h1 <;> simp [h1]
        rw [if_pos hp, if_pos hcond,
          apply_loop_getKey_of_not_mem rest props _ key hnd.1,
          getKey_setKey_self]
      · have hg' : rest.getKey k = some v := by
          simpa [JObj.getKey, he] using hg
        have hpreserve :
            ∀ mp' : JObj, mp'.getKey k = mp.getKey k →
              (mp'.hasKey k = false ∨ isPlaceholder (mp'.getKey k) = true) := by
          intro mp' hmp'
          rcases hmp with h1 | h1
          · exact Or.inl (by simp only [JObj.hasKey, hmp']; simpa [JObj.hasKey] using h1)
          · exact Or.inr (by rw [hmp']; exact h1)
        refine apply_loop_writes rest props _ k v hnd.2 hg' hp (hpreserve _ ?_)
        split_ifs <;> simp [getKey_setKey_ne mp key k _ he]

/-! ### Default-extraction lemmas -/

theorem extract_query_loop_of_no_defaults : ∀ (params : List Param) (defaults : JObj),
    (∀ p ∈ params, (p.schema.getD .nil).getKey "default" = none) →
    extract_query_loop defaults params = defaults
  | [], _, _ => rfl
  | p :: rest, defaults, h => by
      have hp := h p (List.mem_cons_self p rest)
      have hrest : ∀ q ∈ rest, (q.schema.getD .nil).getKey "default" = none :=
        fun q hq => h q (List.mem_cons_of_mem p hq)
      simp only [extract_query_loop, hp]
      rw [extract_query_loop_of_no_defaults rest _ hrest]
      split_ifs <;> rfl

/-! ### Step-resolver equations

The merged-step construction is a plain (non-recursive) function, so each
field of its result is definitionally a merge chain; the equations below
spell those chains out. -/

theorem build_merged_payload (step : Step) (spec : Spec) (gbu : String)
    (gv gh gq gp : JObj) (op : Operation) :
    (build_merged_step step spec gbu gv gh gq gp op).merged_payload
      = apply_global_overrides_to_payload
          (ensure_required_fields
            (recursive_merge ((operation_schema op).dflt.getD .nil)
              (some (step.payload_override.getD .nil)))
            (operation_schema op))
          gv (operation_schema op) := rfl

theorem build_merged_headers (step : Step) (spec : Spec) (gbu : String)
    (gv gh gq gp : JObj) (op : Operation) :
    (build_merged_step step spec gbu gv gh gq gp op).merged_headers
      = recursive_merge
          (recursive_merge (op.default_headers.getD fallback_headers)
            (some (step.headers_override.getD .nil)))
          (some gh) := rfl

theorem build_merged_query_params (step : Step) (spec : Spec) (gbu : String)
    (gv gh gq gp : JObj) (op : Operation) :
    (build_merged_step step spec gbu gv gh gq gp op).merged_query_params
      = recursive_merge
          (recursive_merge (extract_default_query_params (op.parameters.getD []))
            (some (step.query_params_override.getD .nil)))
          (some gq) := rfl

theorem build_merged_path_params (step : Step) (spec : Spec) (gbu : String)
    (gv gh gq gp : JObj) (op : Operation) :
    (build_merged_step step spec gbu gv gh gq gp op).merged_path_params
      = recursive_merge gp (some (step.path_params_override.getD .nil)) := rfl

theorem build_dynamic_path_params (step : Step) (spec : Spec) (gbu : String)
    (gv gh gq gp : JObj) (op : Operation) :
    (build_merged_step step spec gbu gv gh gq gp op).dynamic_overrides.path_params
      = step.path_params_override.getD .nil := rfl

theorem build_static_default_headers (step : Step) (spec : Spec) (gbu : String)
    (gv gh gq gp : JObj) (op : Operation) :
    (build_merged_step step spec gbu gv gh gq gp op).static_details.default_headers
      = op.default_headers.getD fallback_headers := rfl

theorem build_static_base_url (step : Step) (spec : Spec) (gbu : String)
    (gv gh gq gp : JObj) (op : Operation) :
    (build_merged_step step spec gbu gv gh gq gp op).static_details.base_url
      = (if gbu = "" then extract_base_url spec else gbu) := rfl

/-! ### Resolver inversion lemmas -/

theorem process_test_step_ok_iff (step : Step) (spec : Spec) (gbu : String)
    (gv gh gq gp : JObj) (ms : MergedStep) :
    process_test_step step spec gbu gv gh gq gp = .ok ms ↔
    ∃ op, get_endpoint_details spec step.endpoint (step.method.getD "POST") = .ok op ∧
          ms = build_merged_step step spec gbu gv gh gq gp op := by
  cases h : get_endpoint_details spec step.endpoint (step.method.getD "POST") <;>
    simp [process_test_step, h, eq_comm]

theorem process_test_step_error (step : Step) (spec : Spec) (gbu : String)
    (gv gh gq gp : JObj) (e : SpecLookupError)
    (h : get_endpoint_details spec step.endpoint (step.method.getD "POST") = .error e) :
    process_test_step step spec gbu gv gh gq gp = .error e := by
  simp [process_test_step, h]

theorem process_steps_ok : ∀ (steps : List Step) (spec : Spec) (gbu : String)
    (gv gh gq gp : JObj) (mss : List MergedStep),
    process_steps steps spec gbu gv gh gq gp = .ok mss →
    mss.length = steps.length ∧
    ∀ i (hi : i < steps.length) (hi' : i < mss.length),
      ∃ ms, process_test_step (steps.get ⟨i, hi⟩) spec gbu gv gh gq gp = .ok ms ∧
            mss.get ⟨i, hi'⟩ = adjust_step_metadata gp ms
  | [], spec, gbu, gv, gh, gq, gp, mss, h => by
      simp only [process_steps, Except.ok.injEq] at h
      subst h
      exact ⟨rfl, fun i hi => absurd hi (Nat.not_lt_zero i)⟩
  | s :: rest, spec, gbu, gv, gh, gq, gp, mss, h => by
      simp only [process_steps] at h
      cases h1 : process_test_step s spec gbu gv gh gq gp with
      | error e => rw [h1] at h; exact absurd h (by simp)
      | ok ms =>
        rw [h1] at h
        cases h2 : process_steps rest spec gbu gv gh gq gp with
        | error e => rw [h2] at h; exact absurd h (by simp)
        | ok tail =>
          rw [h2] at h
          simp only [Except.ok.injEq] at h
          subst h
          obtain ⟨hlen, hidx⟩ := process_steps_ok rest spec gbu gv gh gq gp tail h2
          refine ⟨by simp [hlen], ?_⟩
          intro i hi hi'
          cases i with
          | zero => exact ⟨ms, h1, rfl⟩
          | succ j =>
            obtain ⟨ms', hms', heq⟩ :=
              hidx j (Nat.lt_of_succ_lt_succ hi) (Nat.lt_of_succ_lt_succ hi')
            exact ⟨ms', hms', heq⟩

theorem process_steps_error_of_mem : ∀ (steps : List Step) (spec : Spec) (gbu : String)
    (gv gh gq gp : JObj) (s : Step), s ∈ steps →
    (∃ e0, get_endpoint_details spec s.endpoint (s.method.getD "POST") = .error e0) →
    ∃ e, process_steps steps spec gbu gv gh gq gp = .error e
  | s0 :: rest, spec, gbu, gv, gh, gq, gp, s, hmem, hfail => by
      rcases List.mem_cons.mp hmem with heq | hmem'
      · subst heq
        obtain ⟨e0, he0⟩ := hfail
        exact ⟨e0, by simp [process_steps, process_test_step_error s spec gbu gv gh gq gp e0 he0]⟩
      · cases h1 : process_test_step s0 spec gbu gv gh gq gp with
        | error e => exact ⟨e, by simp [process_steps, h1]⟩
        | ok ms =>
          obtain ⟨e, he⟩ :=
            process_steps_error_of_mem rest spec gbu gv gh gq gp s hmem' hfail
          exact ⟨e, by simp [process_steps, h1, he]⟩

theorem process_scenario_ok_steps (scenario : Scenario) (spec : Spec) (plan : ExecutionPlan)
    (h : process_scenario scenario spec = .ok plan) :
    process_steps scenario.steps spec (scenario_base_url scenario spec)
        (scenario_global_vars scenario) (scenario_global_headers scenario)
        (scenario_global_query_params scenario) (scenario_global_path_params scenario)
      = .ok plan.steps := by
  cases hh : process_steps scenario.steps spec (scenario_base_url scenario spec)
      (scenario_global_vars scenario) (scenario_global_headers scenario)
      (scenario_global_query_params scenario) (scenario_global_path_params scenario) with
  | error e => rw [process_scenario, hh] at h; exact absurd h (by simp)
  | ok mss =>
    rw [process_scenario, hh] at h
    simp only [Except.ok.injEq] at h
    rw [← h]

theorem adjust_step_metadata_eq (gp : JObj) (ms : MergedStep) :
    adjust_step_metadata gp ms
      = (if ms.dynamic_overrides.path_params.isEmpty
         then { ms with dynamic_overrides :=
                  { ms.dynamic_overrides with path_params := gp } }
         else ms) := by
  cases h : ms.dynamic_overrides.path_params <;>
    simp [adjust_step_metadata, JObj.isEmpty, h]

theorem process_scenario_error_of_steps (scenario : Scenario) (spec : Spec)
    (e : SpecLookupError)
    (h : process_steps scenario.steps spec (scenario_base_url scenario spec)
        (scenario_global_vars scenario) (scenario_global_headers scenario)
        (scenario_global_query_params scenario) (scenario_global_path_params scenario)
      = .error e) :
    process_scenario scenario spec = .error e := by
  rw [process_scenario, h]

/-! ### Claims -/

/-- C1: Required-field completeness.  For every resolved step, every
property named in the request-body schema `required` list is a key of
`merged_payload`; a required property still absent after merging the
default payload with the override is inserted with the placeholder
sentinel `"<value>"` rather than omitted, so the required set is a subset
of the merged-payload key set. -/
theorem required_field_completeness (step : Step) (spec : Spec) (gbu : String)
    (gv gh gq gp : JObj) (op : Operation) (ms : MergedStep)
    (hop : get_endpoint_details spec step.endpoint (step.method.getD "POST") = .ok op)
    (hms : process_test_step step spec gbu gv gh gq gp = .ok ms) :
    (∀ k ∈ (operation_schema op).required.getD [], ms.merged_payload.hasKey k = true) ∧
    (∀ (mp : JObj) (schema : Schema) (k : String), k ∈ schema.required.getD [] →
       mp.getKey k = none →
       (ensure_required_fields mp schema).getKey k = some (JSON.str "<value>")) := by
  constructor
  · intro k hk
    obtain ⟨op', hop', heq⟩ := (process_test_step_ok_iff step spec gbu gv gh gq gp ms).mp hms
    rw [hop] at hop'
    injection hop' with hop2
    subst hop2
    subst heq
    rw [build_merged_payload]
    unfold apply_global_overrides_to_payload
    apply apply_loop_hasKey
    unfold ensure_required_fields
    exact ensure_loop_hasKey_of_mem _ _ k hk
  · intro mp schema k hk hnone
    unfold ensure_required_fields
    exact ensure_loop_inserts _ mp k hk hnone

/-- Witness for C1 on the concrete fixture: a step with no payload
override still carries the required `name` key, inserted as the
placeholder. -/
theorem required_field_completeness_witness :
    (build_merged_step bareStep widgetsSpec "" .nil .nil .nil .nil
        widgetsOp).merged_payload.hasKey "name" = true
    ∧ (ensure_required_fields .nil (operation_schema widgetsOp)).getKey "name"
        = some (JSON.str "<value>") :=
  have h := required_field_completeness bareStep widgetsSpec "" .nil .nil .nil .nil widgetsOp
    (build_merged_step bareStep widgetsSpec "" .nil .nil .nil .nil widgetsOp) rfl rfl
  ⟨h.1 "name" (by decide), h.2 .nil (operation_schema widgetsOp) "name" (by decide) rfl⟩

/-- C6: Recursive merge contract.  A missing override leaves the base
unchanged (the code returns a deep copy, which in this pure embedding is
the value itself — the base argument is never mutated); for a key of the
override, the override value replaces the base value outright — lists
included — unless both the existing value and the override value are
dictionaries, in which case they are merged recursively; keys absent from
the override keep their base value. -/
theorem recursive_merge_contract :
    (∀ base : JObj, recursive_merge base none = base) ∧
    (∀ (base ov : JObj), ov.keys.Nodup → ∀ k : String,
       (recursive_merge base (some ov)).getKey k
         = (match ov.getKey k with
            | none => base.getKey k
            | some v => some (mergeValAt (base.getKey k) v))) :=
  ⟨fun _ => rfl, fun base ov h k => getKey_mergeObj base ov k h⟩

/-- Witness for C6: merging concrete nested dictionaries — the dictionary
values under `a` merge recursively, the key `c` is appended, the key `b`
survives. -/
theorem recursive_merge_contract_witness :
    recursive_merge (JObj.ofList [("a", JSON.obj (JObj.ofList [("x", .num 1)])), ("b", .num 2)])
        none
      = JObj.ofList [("a", JSON.obj (JObj.ofList [("x", .num 1)])), ("b", .num 2)]
    ∧ (recursive_merge
          (JObj.ofList [("a", JSON.obj (JObj.ofList [("x", .num 1)])), ("b", .num 2)])
          (some (JObj.ofList [("a", JSON.obj (JObj.ofList [("y", .num 3)])), ("c", .arr [])]))).getKey
        "a"
      = some (JSON.obj (JObj.ofList [("x", .num 1), ("y", .num 3)])) := by
  refine ⟨recursive_merge_contract.1 _, ?_⟩
  have h := recursive_merge_contract.2
    (JObj.ofList [("a", JSON.obj (JObj.ofList [("x", .num 1)])), ("b", .num 2)])
    (JObj.ofList [("a", JSON.obj (JObj.ofList [("y", .num 3)])), ("c", .arr [])])
    (by decide) "a"
  exact h.trans rfl

/-- C9: Idempotence/determinism: resolving the same `(scenario, spec)`
pair twice yields identical execution plans.  The embedding is a pure
function of the scenario and the specification — it reads them, allocates
only new structures, and cannot mutate its inputs — so the two runs are
definitionally the same value. -/
theorem resolution_idempotent (scenario : Scenario) (spec : Spec) :
    process_scenario scenario spec = process_scenario scenario spec := rfl

/-- C2: Unknown endpoint or method.  For every scenario containing a step
whose `(endpoint, method)` pair has no match in the specification,
scenario resolution surfaces a `SpecLookupError` to the caller — it aborts
and no execution plan, not even a partial one, is produced.  (In the
source the lookup failure is raised as a `ValueError` and converted to a
fatal abort via `sys.exit(1)`; the abort channel is modelled as the error
component of `Except`.) -/
theorem unknown_endpoint_aborts (scenario : Scenario) (spec : Spec) (s : Step)
    (hmem : s ∈ scenario.steps)
    (hfail : ∃ e0, get_endpoint_details spec s.endpoint (s.method.getD "POST") = .error e0) :
    (∃ e : SpecLookupError, process_scenario scenario spec = .error e) ∧
    ∀ plan : ExecutionPlan, process_scenario scenario spec ≠ .ok plan := by
  obtain ⟨e, he⟩ := process_steps_error_of_mem scenario.steps spec
    (scenario_base_url scenario spec) (scenario_global_vars scenario)
    (scenario_global_headers scenario) (scenario_global_query_params scenario)
    (scenario_global_path_params scenario) s hmem hfail
  have herr := process_scenario_error_of_steps scenario spec e he
  refine ⟨⟨e, herr⟩, fun plan hplan => ?_⟩
  rw [herr] at hplan
  exact absurd hplan (by simp)

/-- Witness for C2: the fixture scenario whose only step names the unknown
endpoint `/gadgets` resolves to an error. -/
theorem unknown_endpoint_aborts_witness :
    ∃ e : SpecLookupError, process_scenario unknownScenario widgetsSpec = .error e :=
  (unknown_endpoint_aborts unknownScenario widgetsSpec unknownStep
    (List.mem_cons_self unknownStep [])
    ⟨SpecLookupError.endpointNotFound (some "/gadgets"), rfl⟩).1

/-- C3: Conditional global payload overlay (non-clobbering).  A global
variable is written into the payload only when its key is a declared
schema property and the payload lacks the key or holds the placeholder
sentinel; a step-level payload value that is not the placeholder is never
clobbered by a global variable — the resolved value for that key comes
from the step override (merged over the schema default when both are
dictionaries) and the global overlay leaves it untouched. -/
theorem global_payload_non_clobbering (step : Step) (spec : Spec) (gbu : String)
    (gv gh gq gp : JObj) (op : Operation) (ms : MergedStep) (p : String) (v : JSON)
    (hop : get_endpoint_details spec step.endpoint (step.method.getD "POST") = .ok op)
    (hms : process_test_step step spec gbu gv gh gq gp = .ok ms)
    (hnd : (step.payload_override.getD .nil).keys.Nodup)
    (hstep : (step.payload_override.getD .nil).getKey p = some v)
    (hv : isPlaceholder (some v) = false) :
    ms.merged_payload.getKey p
      = some (mergeValAt (((operation_schema op).dflt.getD .nil).getKey p) v) ∧
    (∀ (mp gvars : JObj) (schema : Schema) (k : String),
       (schema.properties.getD .nil).hasKey k = false →
       (apply_global_overrides_to_payload mp gvars schema).getKey k = mp.getKey k) ∧
    (∀ (mp gvars : JObj) (schema : Schema) (k : String) (w : JSON),
       mp.getKey k = some w → isPlaceholder (some w) = false →
       (apply_global_overrides_to_payload mp gvars schema).getKey k = some w) := by
  refine ⟨?_, ?_, ?_⟩
  · obtain ⟨op', hop', heq⟩ := (process_test_step_ok_iff step spec gbu gv gh gq gp ms).mp hms
    rw [hop] at hop'
    injection hop' with hop2
    subst hop2
    subst heq
    rw [build_merged_payload]
    have h1 : (recursive_merge ((operation_schema op).dflt.getD .nil)
        (some (step.payload_override.getD .nil))).getKey p
        = some (mergeValAt (((operation_schema op).dflt.getD .nil).getKey p) v) := by
      rw [recursive_merge, getKey_mergeObj _ _ p hnd, hstep]
    have h2 := ensure_loop_getKey_of_some
      ((operation_schema op).required.getD [])
      (recursive_merge ((operation_schema op).dflt.getD .nil)
        (some (step.payload_override.getD .nil))) p _ h1
    have h3 := isPlaceholder_mergeValAt (((operation_schema op).dflt.getD .nil).getKey p) v hv
    unfold apply_global_overrides_to_payload
    unfold ensure_required_fields at h2
    exact apply_loop_getKey_of_present gv _ _ p _ h2 h3
  · intro mp gvars schema k hk
    unfold apply_global_overrides_to_payload
    exact apply_loop_getKey_of_not_prop gvars _ mp k hk
  · intro mp gvars schema k w hw hpl
    unfold apply_global_overrides_to_payload
    exact apply_loop_getKey_of_present gvars _ mp k w hw hpl

/-- Witness for C3: the step sets `name` to `"Bolt"` and a global variable
also defines `name`; the resolved payload keeps `"Bolt"`. -/
theorem global_payload_non_clobbering_witness :
    (build_merged_step boltStep widgetsSpec "" (JObj.ofList [("name", .str "Global")])
        .nil .nil .nil widgetsOp).merged_payload.getKey "name" = some (.str "Bolt") := by
  have h := global_payload_non_clobbering boltStep widgetsSpec ""
    (JObj.ofList [("name", .str "Global")]) .nil .nil .nil widgetsOp
    (build_merged_step boltStep widgetsSpec "" (JObj.ofList [("name", .str "Global")])
      .nil .nil .nil widgetsOp) "name" (.str "Bolt") rfl rfl (by decide) rfl rfl
  exact h.1.trans rfl

/-- C5: Path-param floor semantics.  The merged path parameters are
exactly `merge(global_path_params_override, step.path_params_override)`:
a global entry absent from the step survives unchanged, and a key the step
overrides resolves to the step value — layered over the global per the
recursive-merge rule when both values are dictionaries. -/
theorem path_param_floor (step : Step) (spec : Spec) (gbu : String)
    (gv gh gq gp : JObj) (op : Operation) (ms : MergedStep)
    (hop : get_endpoint_details spec step.endpoint (step.method.getD "POST") = .ok op)
    (hms : process_test_step step spec gbu gv gh gq gp = .ok ms) :
    ms.merged_path_params
      = recursive_merge gp (some (step.path_params_override.getD .nil)) ∧
    (∀ k, k ∉ (step.path_params_override.getD .nil).keys →
       ms.merged_path_params.getKey k = gp.getKey k) ∧
    ((step.path_params_override.getD .nil).keys.Nodup →
       ∀ k v, (step.path_params_override.getD .nil).getKey k = some v →
         ms.merged_path_params.getKey k = some (mergeValAt (gp.getKey k) v)) := by
  obtain ⟨op', hop', heq⟩ := (process_test_step_ok_iff step spec gbu gv gh gq gp ms).mp hms
  rw [hop] at hop'
  injection hop' with hop2
  subst hop2
  subst heq
  refine ⟨build_merged_path_params step spec gbu gv gh gq gp op, ?_, ?_⟩
  · intro k hk
    rw [build_merged_path_params, recursive_merge]
    exact getKey_mergeObj_not_mem gp _ k hk
  · intro hnd k v hv
    rw [build_merged_path_params, recursive_merge, getKey_mergeObj _ _ k hnd, hv]

/-- Witness for C5 on the concrete instance of the claim: global
`{clientCode: "G"}` with step override `{propertyCode: "S"}` yields
`{clientCode: "G", propertyCode: "S"}`. -/
theorem path_param_floor_witness :
    (build_merged_step pathStep widgetsSpec "" .nil .nil .nil
        (JObj.ofList [("clientCode", .str "G")]) widgetsOp).merged_path_params
      = JObj.ofList [("clientCode", .str "G"), ("propertyCode", .str "S")]
    ∧ (build_merged_step pathStep widgetsSpec "" .nil .nil .nil
        (JObj.ofList [("clientCode", .str "G")]) widgetsOp).merged_path_params.getKey
        "clientCode" = some (.str "G") := by
  have h := path_param_floor pathStep widgetsSpec "" .nil .nil .nil
    (JObj.ofList [("clientCode", .str "G")]) widgetsOp
    (build_merged_step pathStep widgetsSpec "" .nil .nil .nil
      (JObj.ofList [("clientCode", .str "G")]) widgetsOp) rfl rfl
  exact ⟨h.1.trans rfl, (h.2.1 "clientCode" (by decide)).trans rfl⟩

/-- C7: Soft defaults never error.  Once the endpoint lookup succeeds the
step resolver is total; a missing operation-level `default_headers` yields
the hard-coded fallback, a missing request-body schema leaves the payload
pipeline with the empty default, query parameters without a schema default
contribute nothing, and a missing `servers[0].url` (or an empty `servers`
list) yields an empty base URL. -/
theorem soft_defaults_never_error (step : Step) (spec : Spec) (gbu : String)
    (gv gh gq gp : JObj) (op : Operation)
    (hop : get_endpoint_details spec step.endpoint (step.method.getD "POST") = .ok op) :
    (∃ ms, process_test_step step spec gbu gv gh gq gp = .ok ms) ∧
    (op.default_headers = none →
       (build_merged_step step spec gbu gv gh gq gp op).static_details.default_headers
         = fallback_headers) ∧
    (op.requestBodySchema = none → gv = .nil → step.payload_override = none →
       (build_merged_step step spec gbu gv gh gq gp op).merged_payload = .nil) ∧
    (∀ params : List Param,
       (∀ p ∈ params, (p.schema.getD .nil).getKey "default" = none) →
       extract_default_query_params params = .nil) ∧
    (spec.servers.getD [] = [] → extract_base_url spec = "") ∧
    (∀ (srv : Server) (tail : List Server),
       spec.servers.getD [] = srv :: tail → srv.url = none →
       extract_base_url spec = "") := by
  refine ⟨⟨build_merged_step step spec gbu gv gh gq gp op, ?_⟩, ?_, ?_, ?_, ?_, ?_⟩
  · rw [process_test_step, hop]
  · intro h
    rw [build_static_default_headers, h]
    rfl
  · intro h1 h2 h3
    rw [build_merged_payload]
    unfold operation_schema
    rw [h1, h2, h3]
    rfl
  · intro params h
    unfold extract_default_query_params
    exact extract_query_loop_of_no_defaults params .nil h
  · intro h
    rw [extract_base_url, h]
  · intro srv tail h hurl
    rw [extract_base_url, h]
    show srv.url.getD "" = ""
    rw [hurl]
    rfl

/-- Witness for C7 on the all-missing fixture: resolution succeeds, the
fallback headers appear, the payload stays empty, the query parameter
without a default is omitted, and the base URL is empty. -/
theorem soft_defaults_never_error_witness :
    (∃ ms, process_test_step minimalStep minimalSpec "" .nil .nil .nil .nil = .ok ms)
    ∧ (build_merged_step minimalStep minimalSpec "" .nil .nil .nil .nil
        minimalOp).static_details.default_headers = fallback_headers
    ∧ (build_merged_step minimalStep minimalSpec "" .nil .nil .nil .nil
        minimalOp).merged_payload = .nil
    ∧ extract_default_query_params (minimalOp.parameters.getD []) = .nil
    ∧ extract_base_url minimalSpec = "" := by
  have h := soft_defaults_never_error minimalStep minimalSpec "" .nil .nil .nil .nil
    minimalOp rfl
  refine ⟨h.1, h.2.1 rfl, h.2.2.1 rfl rfl rfl, ?_, ?_⟩
  · refine h.2.2.2.1 (minimalOp.parameters.getD []) ?_
    intro p hp
    rw [List.mem_singleton.mp hp]
    rfl
  · exact h.2.2.2.2.2 { url := none } [] rfl rfl

/-- C4 (counterexample): the claim says that whenever a step sets a header
`H` that the global headers also define, the merged value for `H` is the
global value.  Concretely, `nestedStep` sets `X-Meta` to the dictionary
`{a: "1"}` and the globals set `X-Meta` to `{b: "2"}`; the resolved merged
value for `X-Meta` is the recursive merge `{a: "1", b: "2"}`, which is not
the global value. -/
theorem header_overlay_counterexample :
    process_test_step nestedStep widgetsSpec "" .nil nestedGlobals .nil .nil
      = .ok (build_merged_step nestedStep widgetsSpec "" .nil nestedGlobals .nil .nil widgetsOp)
    ∧ nestedGlobals.getKey "X-Meta" = some (JSON.obj (JObj.ofList [("b", .str "2")]))
    ∧ (build_merged_step nestedStep widgetsSpec "" .nil nestedGlobals .nil .nil
        widgetsOp).merged_headers.getKey "X-Meta"
      = some (JSON.obj (JObj.ofList [("a", .str "1"), ("b", .str "2")]))
    ∧ some (JSON.obj (JObj.ofList [("a", .str "1"), ("b", .str "2")]))
      ≠ some (JSON.obj (JObj.ofList [("b", .str "2")])) :=
  ⟨rfl, rfl, rfl, by simp [JObj.ofList]⟩

/-- C4 (amended): `merged_headers` equals
`merge(merge(default_headers, step.headers_override), global_headers_override)`
and `merged_query_params` equals the analogous chain with the global query
overlay last.  When a step sets a header `H` that the globals also define,
the merged value for `H` is the global value — except when both the global
value and the value already merged from defaults and step override are
dictionaries, in which case the merged value is their recursive merge with
global entries taking precedence. -/
theorem header_query_overlay_amended (step : Step) (spec : Spec) (gbu : String)
    (gv gh gq gp : JObj) (op : Operation) (ms : MergedStep)
    (hop : get_endpoint_details spec step.endpoint (step.method.getD "POST") = .ok op)
    (hms : process_test_step step spec gbu gv gh gq gp = .ok ms) :
    ms.merged_headers
      = recursive_merge (recursive_merge (op.default_headers.getD fallback_headers)
          (some (step.headers_override.getD .nil))) (some gh) ∧
    ms.merged_query_params
      = recursive_merge (recursive_merge (extract_default_query_params (op.parameters.getD []))
          (some (step.query_params_override.getD .nil))) (some gq) ∧
    (gh.keys.Nodup → ∀ k v, gh.getKey k = some v →
       ms.merged_headers.getKey k
         = some (mergeValAt ((recursive_merge (op.default_headers.getD fallback_headers)
             (some (step.headers_override.getD .nil))).getKey k) v)) ∧
    (gh.keys.Nodup → ∀ k v, gh.getKey k = some v → (∀ sub : JObj, v ≠ JSON.obj sub) →
       ms.merged_headers.getKey k = some v) := by
  obtain ⟨op', hop', heq⟩ := (process_test_step_ok_iff step spec gbu gv gh gq gp ms).mp hms
  rw [hop] at hop'
  injection hop' with hop2
  subst hop2
  subst heq
  refine ⟨build_merged_headers step spec gbu gv gh gq gp op,
          build_merged_query_params step spec gbu gv gh gq gp op, ?_, ?_⟩
  · intro hnd k v hv
    rw [build_merged_headers, recursive_merge_some]
    exact getKey_mergeObj_of_some _ gh k v hnd hv
  · intro hnd k v hv hno
    rw [build_merged_headers, recursive_merge_some,
      getKey_mergeObj_of_some _ gh k v hnd hv, mergeValAt_of_not_obj _ v hno]

/-- Witness for the amended C4 on the documented concrete scenario: the
global string-valued header `X-Trace` wins over the step's value, and the
whole merged header map matches the documented expectation. -/
theorem header_query_overlay_witness :
    (build_merged_step boltStep widgetsSpec "" .nil sec8Globals .nil .nil
        widgetsOp).merged_headers
      = JObj.ofList [("Content-Type", .str "application/json"),
                     ("Accept", .str "text/plain"), ("X-Trace", .str "1")]
    ∧ (build_merged_step boltStep widgetsSpec "" .nil sec8Globals .nil .nil
        widgetsOp).merged_headers.getKey "X-Trace" = some (.str "1") := by
  have h := header_query_overlay_amended boltStep widgetsSpec "" .nil sec8Globals .nil .nil
    widgetsOp
    (build_merged_step boltStep widgetsSpec "" .nil sec8Globals .nil .nil widgetsOp) rfl rfl
  refine ⟨h.1.trans rfl, ?_⟩
  exact h.2.2.2 (by decide) "X-Trace" (.str "1") rfl (fun sub hcontra => by cases hcontra)

/-- C8: Path-params metadata quirk is frame-limited.  Every step of a
successful plan equals the step resolver's output except for exactly one
adjustment: when and only when the recorded `dynamic_overrides.path_params`
is the empty dict, that traceability field is overwritten with the
scenario's `global_path_params_override`; `merged_path_params` and every
other field are unchanged by the post-processing. -/
theorem path_params_metadata_quirk (scenario : Scenario) (spec : Spec) (plan : ExecutionPlan)
    (h : process_scenario scenario spec = .ok plan) :
    plan.steps.length = scenario.steps.length ∧
    ∀ i (hi : i < scenario.steps.length) (hi' : i < plan.steps.length),
      ∃ ms, process_test_step (scenario.steps.get ⟨i, hi⟩) spec
              (scenario_base_url scenario spec) (scenario_global_vars scenario)
              (scenario_global_headers scenario) (scenario_global_query_params scenario)
              (scenario_global_path_params scenario) = .ok ms ∧
        plan.steps.get ⟨i, hi'⟩
          = (if ms.dynamic_overrides.path_params.isEmpty
             then { ms with dynamic_overrides :=
                      { ms.dynamic_overrides with
                          path_params := scenario_global_path_params scenario } }
             else ms) ∧
        (plan.steps.get ⟨i, hi'⟩).merged_path_params = ms.merged_path_params := by
  have hsteps := process_scenario_ok_steps scenario spec plan h
  obtain ⟨hlen, hidx⟩ := process_steps_ok scenario.steps spec
    (scenario_base_url scenario spec) (scenario_global_vars scenario)
    (scenario_global_headers scenario) (scenario_global_query_params scenario)
    (scenario_global_path_params scenario) plan.steps hsteps
  refine ⟨hlen, fun i hi hi' => ?_⟩
  obtain ⟨ms, hms, heq⟩ := hidx i hi hi'
  refine ⟨ms, hms, ?_, ?_⟩
  · rw [heq, adjust_step_metadata_eq]
  · rw [heq, adjust_step_metadata_eq]
    by_cases hc : ms.dynamic_overrides.path_params.isEmpty = true <;> simp [hc]

/-- Witness for C8 on the quirk fixture: the first step has no step-level
path params, so its recorded metadata becomes the global override while its
merged path params are the global map; the second step has its own
override, so its metadata is untouched and the merged map layers it over
the global. -/
theorem path_params_metadata_quirk_witness :
    (process_scenario quirkScenario widgetsSpec).map
        (fun plan => plan.steps.map
          (fun s => (s.dynamic_overrides.path_params, s.merged_path_params)))
      = .ok [(JObj.ofList [("clientCode", .str "G")],
              JObj.ofList [("clientCode", .str "G")]),
             (JObj.ofList [("propertyCode", .str "S")],
              JObj.ofList [("clientCode", .str "G"), ("propertyCode", .str "S")])] := by
  have h := path_params_metadata_quirk quirkScenario widgetsSpec _ rfl
  exact rfl

/-- C10: the placeholder sentinel is the exact string `"<value>"`, and the
conditional global overlay tests values by equality with it; a step that
explicitly sets a declared schema property to the literal `"<value>"`
satisfies required-field completeness (the key is present) yet is
overwritten by a matching global variable — the non-clobbering guarantee
does not cover it. -/
theorem placeholder_sentinel_edge (step : Step) (spec : Spec) (gbu : String)
    (gv gh gq gp : JObj) (op : Operation) (ms : MergedStep) (p : String) (gval : JSON)
    (hop : get_endpoint_details spec step.endpoint (step.method.getD "POST") = .ok op)
    (hms : process_test_step step spec gbu gv gh gq gp = .ok ms)
    (hnd : (step.payload_override.getD .nil).keys.Nodup)
    (hgnd : gv.keys.Nodup)
    (hstep : (step.payload_override.getD .nil).getKey p = some (JSON.str "<value>"))
    (hprop : ((operation_schema op).properties.getD .nil).hasKey p = true)
    (hgv : gv.getKey p = some gval) :
    ms.merged_payload.hasKey p = true ∧ ms.merged_payload.getKey p = some gval := by
  obtain ⟨op', hop', heq⟩ := (process_test_step_ok_iff step spec gbu gv gh gq gp ms).mp hms
  rw [hop] at hop'
  injection hop' with hop2
  subst hop2
  subst heq
  rw [build_merged_payload]
  have h1 : (recursive_merge ((operation_schema op).dflt.getD .nil)
      (some (step.payload_override.getD .nil))).getKey p
      = some (JSON.str "<value>") := by
    rw [recursive_merge_some, getKey_mergeObj_of_some _ _ p _ hnd hstep, mergeValAt_str]
  have h2 : (ensure_required_fields
      (recursive_merge ((operation_schema op).dflt.getD .nil)
        (some (step.payload_override.getD .nil)))
      (operation_schema op)).getKey p = some (JSON.str "<value>") := by
    unfold ensure_required_fields
    exact ensure_loop_getKey_of_some ((operation_schema op).required.getD []) _ p _ h1
  have h3 : (apply_global_overrides_to_payload
      (ensure_required_fields
        (recursive_merge ((operation_schema op).dflt.getD .nil)
          (some (step.payload_override.getD .nil)))
        (operation_schema op))
      gv (operation_schema op)).getKey p = some gval := by
    unfold apply_global_overrides_to_payload
    refine apply_loop_writes gv _ _ p gval hgnd hgv hprop (Or.inr ?_)
    rw [h2]
    rfl
  refine ⟨?_, h3⟩
  unfold JObj.hasKey
  rw [h3]
  rfl

/-- Witness for C10: the step sets the declared property `name` to the
literal `"<value>"`; the global variable `name = "Global"` overwrites it. -/
theorem placeholder_sentinel_edge_witness :
    (build_merged_step placeholderStep widgetsSpec ""
        (JObj.ofList [("name", .str "Global")]) .nil .nil .nil
        widgetsOp).merged_payload.getKey "name" = some (.str "Global") := by
  have h := placeholder_sentinel_edge placeholderStep widgetsSpec ""
    (JObj.ofList [("name", .str "Global")]) .nil .nil .nil widgetsOp
    (build_merged_step placeholderStep widgetsSpec ""
      (JObj.ofList [("name", .str "Global")]) .nil .nil .nil widgetsOp)
    "name" (.str "Global") rfl rfl (by decide) (by decide) rfl rfl rfl
  exact h.2

end StructuredPreprocessing
